import Mathlib

/-!
Shallow embedding of `src/logic/translation_manager.py` (novel-manager).

The file models `TranslationWorker.run`, `TranslationWorker._translate_single_file`
and the entry guard of `TranslationManager.translate_files`.

Modelling choices:
* The translator collaborator (`translator.translate_text`) is an environment
  function from the input text to either a returned string or a raised
  exception; all other arguments of the Python call are fixed for one run, so
  they are folded into the function.
* The `_stop_requested` flag can be flipped concurrently by `stop()`.  Each
  read of the flag is modelled by an oracle `stop : Nat → Bool` indexed by a
  read counter (`clock` in the run state); a real schedule gives a monotone
  oracle (once set, the flag stays set).
* The filesystem is a map from paths to contents; a whole-file write, an
  atomic `os.replace` and `os.remove` are the primitive updates, matching the
  granularity at which the Python code touches files.  A missing path makes
  `open(..., 'r')` raise.
* Qt signal emissions and `time.sleep` are recorded in an event trace in
  emission order.
* In the embedding the record-store calls and signal emissions are total, so
  the batch-level `except` branch of `run` is unreachable; every reachable
  path of the model corresponds to a real path of the code.
-/

/-- Outcome of a call to `translator.translate_text`: a returned string or a
raised exception with message `msg`. -/
inductive TransResult where
  | ret (s : String)
  | raise (msg : String)
deriving DecidableEq

/-- The external world of one worker run: the translator behaviour and the
value of `_stop_requested` at each successive read. -/
structure Env where
  translate : String → TransResult
  stop : Nat → Bool

/-- The observable actions of a run, in emission order: the four Qt signals of
`TranslationWorker` plus the inter-file `time.sleep` pause. -/
inductive Event where
  | ProgressMessage (s : String)
  | FileCompleted (name : String) (success : Bool)
  | BatchCompleted
  | ErrorOccurred (msg : String)
  | Sleep (n : Nat)
deriving DecidableEq

/-- Filesystem: path to content, `none` when the path does not exist. -/
def Fs : Type := String → Option String

/-- Whole-file write (`open(p, 'w').write(c)`): creates or truncates `p`. -/
def fsWrite (fs : Fs) (p c : String) : Fs :=
  fun q => if q = p then some c else fs q

/-- `os.replace(src, dst)`: atomically moves `src` onto `dst`. -/
def fsReplace (fs : Fs) (src dst : String) : Fs :=
  fun q => if q = src then none else if q = dst then fs src else fs q

/-- `os.remove p`. -/
def fsRemove (fs : Fs) (p : String) : Fs :=
  fun q => if q = p then none else fs q

/-- `os.path.exists p`. -/
def fsExists (fs : Fs) (p : String) : Bool :=
  (fs p).isSome

/-- `os.path.join` for the simple relative names the worker builds. -/
def joinPath (d f : String) : String := d ++ "/" ++ f

/-- Record store handle bound to the working directory: the prior contents
(queried by `is_file_translated`) and the records added during this run. -/
structure Db where
  translated : String → Bool
  records : List (String × String × String)

/-- `db.is_file_translated name`: a record for `name` exists, whether prior or
added earlier in this same run (the store is read-your-writes). -/
def Db.is_file_translated (db : Db) (name : String) : Bool :=
  db.translated name || db.records.any (fun r => r.1 = name)

/-- `db.add_translation_record name source_lang target_lang`. -/
def Db.add_translation_record (db : Db) (name sl tl : String) : Db :=
  { db with records := db.records ++ [(name, sl, tl)] }

/-- Model message for the exception raised by `open(input_path, 'r')` when the
path does not exist. -/
def readErrMsg : String := "No such file or directory"

/-- Result of `_translate_single_file`: the returned boolean, the filesystem
after the call, the events it emitted, and how many times it invoked the
translator (instrumentation, 0 or 1). -/
structure FileResult where
  ok : Bool
  fs : Fs
  events : List Event
  calls : Nat

/-- `TranslationWorker._translate_single_file(filename)` (lines 83-123).
Reads the original, invokes the translator, writes a sibling temp file and
atomically replaces the original; on an exception it emits an error and
best-effort removes the temp file; on an empty translation it emits an error
and returns `False` without touching the filesystem. -/
def translate_single_file (tr : String → TransResult) (wd filename : String)
    (fs : Fs) : FileResult :=
  let input_path := joinPath wd filename
  let temp_output_path := joinPath wd (".temp_" ++ filename)
  match fs input_path with
  | none =>
      { ok := false
        fs := if fsExists fs temp_output_path then fsRemove fs temp_output_path else fs
        events := [.ErrorOccurred ("Error al traducir " ++ filename ++ ": " ++ readErrMsg)]
        calls := 0 }
  | some text =>
    match tr text with
    | .raise m =>
        { ok := false
          fs := if fsExists fs temp_output_path then fsRemove fs temp_output_path else fs
          events := [.ErrorOccurred ("Error al traducir " ++ filename ++ ": " ++ m)]
          calls := 1 }
    | .ret s =>
        if s = "" then
          { ok := false
            fs := fs
            events := [.ErrorOccurred ("Error al traducir " ++ filename ++ ": No se obtuvo traducción")]
            calls := 1 }
        else
          { ok := true
            fs := fsReplace (fsWrite fs temp_output_path s) temp_output_path input_path
            events := []
            calls := 1 }

/-- Mutable state threaded through `TranslationWorker.run`. -/
structure RunState where
  fs : Fs
  db : Db
  success : Nat
  clock : Nat
  calls : Nat
  events : List Event

/-- The per-file progress message of line 52. -/
def progressMsg (i total : Nat) (filename : String) : String :=
  "Traduciendo capítulo " ++ toString i ++ " de " ++ toString total ++ ": " ++ filename

/-- The final summary message of lines 73-74. -/
def finalMessage (success total : Nat) : String :=
  "Traducción completada. " ++ toString success ++ " de " ++ toString total ++
    " archivos traducidos exitosamente."

/-- Outcome of one loop iteration: continue with, or break out of, the loop. -/
inductive StepOut where
  | cont (st : RunState)
  | brk (st : RunState)

/-- Lines 58-66 of `run`, for a file that is attempted: apply
`_translate_single_file`; on success increment the counter, write the record
and emit `translation_completed(filename, True)`; on failure emit
`translation_completed(filename, False)`. -/
def attemptState (env : Env) (wd sl tl f : String) (st1 : RunState) : RunState :=
  let r := translate_single_file env.translate wd f st1.fs
  let st2 : RunState :=
    { st1 with fs := r.fs, events := st1.events ++ r.events, calls := st1.calls + r.calls }
  if r.ok then
    { st2 with
      success := st2.success + 1
      db := st2.db.add_translation_record f sl tl
      events := st2.events ++ [.FileCompleted f true] }
  else
    { st2 with events := st2.events ++ [.FileCompleted f false] }

/-- Lines 68-70 of `run`: when this was not the last file, read the stop flag
and, when it is unset, `time.sleep(5)` before the next file. -/
def pacingState (env : Env) (i total : Nat) (st3 : RunState) : RunState :=
  if i < total then
    if env.stop st3.clock then
      { st3 with clock := st3.clock + 1 }
    else
      { st3 with clock := st3.clock + 1, events := st3.events ++ [.Sleep 5] }
  else
    st3

/-- One iteration of the `for` loop of `run` (lines 47-70) for the file at
1-based position `i` of `total`: loop-top stop check, progress message,
skip-if-translated (the `continue` at line 56 bypasses the pacing pause),
then the attempt followed by the pacing guard.  Every read of
`_stop_requested` advances `clock`. -/
def runStep (env : Env) (wd sl tl filename : String) (i total : Nat)
    (st : RunState) : StepOut :=
  if env.stop st.clock then
    .brk { st with clock := st.clock + 1 }
  else
    let st1 : RunState :=
      { st with
        clock := st.clock + 1
        events := st.events ++ [.ProgressMessage (progressMsg i total filename)] }
    if st1.db.is_file_translated filename then
      .cont st1
    else
      .cont (pacingState env i total (attemptState env wd sl tl filename st1))

/-- The `for` loop of `run` over the remaining files, `i` being the 1-based
position of the head. -/
def runLoop (env : Env) (wd sl tl : String) : List String → Nat → Nat → RunState → RunState
  | [], _, _, st => st
  | f :: rest, i, total, st =>
    match runStep env wd sl tl f i total st with
    | .brk st1 => st1
    | .cont st1 => runLoop env wd sl tl rest (i + 1) total st1

/-- Lines 72-81 of `run`: after the loop, when no stop was observed, emit the
summary message and `all_translations_completed`; the `finally` block then
emits `all_translations_completed` unconditionally. -/
def runFinish (env : Env) (total : Nat) (st : RunState) : RunState :=
  let st1 : RunState :=
    if env.stop st.clock then
      { st with clock := st.clock + 1 }
    else
      { st with
        clock := st.clock + 1
        events := st.events ++ [.ProgressMessage (finalMessage st.success total), .BatchCompleted] }
  { st1 with events := st1.events ++ [.BatchCompleted] }

/-- `TranslationWorker.run` (lines 38-81): the loop followed by the
termination block. -/
def TranslationWorker.run (env : Env) (wd sl tl : String) (files : List String)
    (st : RunState) : RunState :=
  runFinish env files.length (runLoop env wd sl tl files 1 files.length st)

/-- Fresh run state over a filesystem and the prior record-store contents. -/
def initState (fs : Fs) (translated : String → Bool) : RunState :=
  { fs := fs
    db := { translated := translated, records := [] }
    success := 0
    clock := 0
    calls := 0
    events := [] }

/-- The translator object's mutable configuration (`TranslatorLogic`), reduced
to the field the orchestrator touches. -/
structure TranslatorState where
  segment_size : Option Nat
deriving DecidableEq

/-- Line 33 of `TranslationWorker.__init__`: the constructor assigns
`self.translator.segment_size = segment_size` unconditionally. -/
def workerInitTranslator (t : TranslatorState) (segment_size : Option Nat) : TranslatorState :=
  { t with segment_size := segment_size }

/-- Lines 44-45 of `run`: assign `translator.segment_size` only when an
override was supplied. -/
def runConfigTranslator (t : TranslatorState) (segment_size : Option Nat) : TranslatorState :=
  match segment_size with
  | some n => { t with segment_size := some n }
  | none => t

/-- State of a `TranslationManager`, reduced to what `translate_files` reads
and writes: the bound directory, the bound store (with its saved custom-terms
log), whether a worker thread was started, and the emitted events. -/
structure ManagerState where
  working_directory : Option String
  db_terms : Option (List String)
  worker_started : Bool
  events : List Event

/-- Python truthiness of `self.working_directory`: falsy when unset or the
empty string. -/
def pyFalsyStr : Option String → Bool
  | none => true
  | some s => s == ""

/-- A manager as built by `TranslationManager.__init__`: nothing bound yet. -/
def ManagerState.fresh : ManagerState :=
  { working_directory := none, db_terms := none, worker_started := false, events := [] }

/-- `TranslationManager.translate_files` (lines 156-218), up to starting the
worker thread: the not-ready guard, saving non-blank custom terms, and
launching the worker. -/
def TranslationManager.translate_files (m : ManagerState) (custom_terms : String) : ManagerState :=
  if pyFalsyStr m.working_directory || m.db_terms.isNone then
    { m with events := m.events ++ [.ErrorOccurred "No se ha inicializado el directorio de trabajo"] }
  else
    let m1 : ManagerState :=
      if custom_terms.trim ≠ "" then
        { m with db_terms := m.db_terms.map (fun l => l ++ [custom_terms]) }
      else
        m
    { m1 with worker_started := true }

/-- A stop oracle is a valid schedule of the `_stop_requested` flag when it is
monotone: `stop()` only ever sets the flag. -/
def StopMono (stop : Nat → Bool) : Prop :=
  ∀ i j, i ≤ j → stop i = true → stop j = true

/-! ### Helper lemmas and concrete example data -/

/-- The temp path never collides with the target path: the names differ in
length by the 6-character prefix. -/
lemma joinPath_temp_ne (wd f : String) : joinPath wd (".temp_" ++ f) ≠ joinPath wd f := by
  intro h
  have hlen := congrArg String.length h
  simp [joinPath, String.length_append] at hlen
  have h6 : (".temp_").length = 6 := rfl
  omega

/-- The state after an iteration that skipped an already-translated file:
only the progress message was emitted and one stop-flag read happened. -/
def skipState (st : RunState) (i total : Nat) (f : String) : RunState :=
  { st with
    clock := st.clock + 1
    events := st.events ++ [.ProgressMessage (progressMsg i total f)] }

/-- An iteration on an already-translated file, with no stop pending, reduces
to the pure skip: progress message, then `continue`. -/
lemma runStep_skip {env : Env} {wd sl tl f : String} {i total : Nat} {st : RunState}
    (hstop : env.stop st.clock = false) (ht : st.db.is_file_translated f = true) :
    runStep env wd sl tl f i total st = .cont (skipState st i total f) := by
  simp [runStep, hstop, ht, skipState]

def exTranslateT : String → TransResult := fun _ => .ret "T"

def exStopNever : Nat → Bool := fun _ => false

def exStopAlways : Nat → Bool := fun _ => true

def exEnvT : Env := { translate := exTranslateT, stop := exStopNever }

def exFs : Fs :=
  fun p => if p = "wd/a" then some "hola" else if p = "wd/b" then some "mundo" else none

/-- Claim C1: the claim says the batch-completed event is emitted exactly once
per run.  The code refutes this on the ordinary success path: line 76 emits
`all_translations_completed` inside the `try` block when no stop was
requested, and the `finally` block at line 81 emits it again, so an
un-stopped, exception-free run emits it twice.  Here a one-file batch whose
translation succeeds produces two `BatchCompleted` events. -/
theorem batchCompleted_twice_on_normal_run :
    ((TranslationWorker.run exEnvT "wd" "en" "es" ["a"]
        (initState exFs (fun _ => false))).events).count Event.BatchCompleted = 2 := by
  decide

/-- Claim C4: an iteration on a file already recorded as translated, with no
stop pending, emits exactly the per-file progress message and nothing else —
the resulting state differs from the incoming one only in the stop-read
counter and that one event, so the translator is not invoked (`calls`
unchanged), no `FileCompleted` is emitted, no record is written and the
filesystem is untouched — and the loop proceeds directly to the remaining
files. -/
theorem skip_already_translated {env : Env} {wd sl tl f : String} {i total : Nat}
    {st : RunState} (rest : List String)
    (hstop : env.stop st.clock = false) (ht : st.db.is_file_translated f = true) :
    runStep env wd sl tl f i total st = .cont (skipState st i total f) ∧
    runLoop env wd sl tl (f :: rest) i total st =
      runLoop env wd sl tl rest (i + 1) total (skipState st i total f) := by
  refine ⟨runStep_skip hstop ht, ?_⟩
  simp [runLoop, runStep_skip hstop ht]

/-- Witness for C4: a two-file batch whose first file is already recorded. -/
theorem skip_already_translated_witness :
    exEnvT.stop (initState exFs (fun n => n == "a")).clock = false ∧
    (initState exFs (fun n => n == "a")).db.is_file_translated "a" = true ∧
    (runStep exEnvT "wd" "en" "es" "a" 1 2 (initState exFs (fun n => n == "a")) =
        .cont (skipState (initState exFs (fun n => n == "a")) 1 2 "a") ∧
      runLoop exEnvT "wd" "en" "es" ["a", "b"] 1 2 (initState exFs (fun n => n == "a")) =
        runLoop exEnvT "wd" "en" "es" ["b"] 2 2
          (skipState (initState exFs (fun n => n == "a")) 1 2 "a")) :=
  ⟨rfl, by decide, skip_already_translated ["b"] rfl (by decide)⟩

/-- Claim C9: the skip check at line 55 calls `db.is_file_translated(filename)`
with the filename only, so for a file with an existing record the whole
iteration is identical under any two requested language pairs, and (when no
stop is pending) it is the pure skip.  The language pair plays no part in the
skip predicate. -/
theorem skip_ignores_language_pair {env : Env} {wd f : String} (sl tl sl2 tl2 : String)
    {i total : Nat} {st : RunState} (ht : st.db.is_file_translated f = true) :
    runStep env wd sl tl f i total st = runStep env wd sl2 tl2 f i total st ∧
    (env.stop st.clock = false →
      runStep env wd sl tl f i total st = .cont (skipState st i total f)) := by
  constructor
  · cases hstop : env.stop st.clock <;> simp [runStep, hstop, ht]
  · intro hstop
    exact runStep_skip hstop ht

/-- Witness for C9: the recorded file is skipped identically for the pairs
(en, es) and (en, de). -/
theorem skip_ignores_language_pair_witness :
    (initState exFs (fun n => n == "a")).db.is_file_translated "a" = true ∧
    (runStep exEnvT "wd" "en" "es" "a" 1 2 (initState exFs (fun n => n == "a")) =
        runStep exEnvT "wd" "en" "de" "a" 1 2 (initState exFs (fun n => n == "a")) ∧
      (exEnvT.stop (initState exFs (fun n => n == "a")).clock = false →
        runStep exEnvT "wd" "en" "es" "a" 1 2 (initState exFs (fun n => n == "a")) =
          .cont (skipState (initState exFs (fun n => n == "a")) 1 2 "a"))) :=
  ⟨by decide, skip_ignores_language_pair "en" "es" "en" "de" (by decide)⟩

def exEnvStop : Env := { translate := exTranslateT, stop := exStopAlways }

/-- Claim C5: once the stop flag is set before the loop reaches the remaining
files, the rest of the run appends exactly one `BatchCompleted` event and
nothing else: no `FileCompleted` for any pending file and no final summary
message, while the batch-completed finalizer still fires.  The flag is only
consulted at the loop top (and at the sleep guard and the summary guard), so
an iteration already past its loop-top check runs to completion first. -/
theorem stop_prevents_remaining_files {env : Env} {wd sl tl : String}
    (pending : List String) (i total : Nat) {st : RunState}
    (hmono : StopMono env.stop) (hstop : env.stop st.clock = true) :
    (runFinish env total (runLoop env wd sl tl pending i total st)).events =
      st.events ++ [Event.BatchCompleted] := by
  cases pending with
  | nil => simp [runLoop, runFinish, hstop]
  | cons f rest =>
      have hstep : runStep env wd sl tl f i total st =
          .brk { st with clock := st.clock + 1 } := by
        simp [runStep, hstop]
      have h2 : env.stop (st.clock + 1) = true :=
        hmono st.clock (st.clock + 1) (Nat.le_succ _) hstop
      simp [runLoop, hstep, runFinish, h2]

/-- Witness for C5: stop already set before a two-file batch. -/
theorem stop_prevents_remaining_files_witness :
    StopMono exEnvStop.stop ∧
    exEnvStop.stop (initState exFs (fun _ => false)).clock = true ∧
    (runFinish exEnvStop 2 (runLoop exEnvStop "wd" "en" "es" ["a", "b"] 1 2
        (initState exFs (fun _ => false)))).events =
      (initState exFs (fun _ => false)).events ++ [Event.BatchCompleted] :=
  ⟨fun _ _ _ h => h, rfl,
    stop_prevents_remaining_files ["a", "b"] 1 2 (fun _ _ _ h => h) rfl⟩

/-- Claim C7, counterexample: the claim says that with no override supplied
the translator's existing segment-size setting is left unchanged.  But line 33
of `TranslationWorker.__init__` assigns `translator.segment_size =
segment_size` unconditionally, so constructing a worker with no override
overwrites a previously configured value (here 500) with the unset value. -/
theorem segment_size_reset_counterexample :
    (runConfigTranslator (workerInitTranslator { segment_size := some 500 } none)
        none).segment_size ≠ some 500 := by
  decide

/-- Claim C7, amended: the worker constructor unconditionally assigns the
batch's override (the unset value when absent) to the translator's mutable
segment-size configuration, and `run` re-assigns it only when an override is
supplied; hence after setup the translator's segment size always equals the
supplied override, and with no override it is reset to unset rather than left
unchanged. -/
theorem segment_size_always_assigned (t : TranslatorState) (s : Option Nat) :
    (workerInitTranslator t s).segment_size = s ∧
    runConfigTranslator (workerInitTranslator t s) s = workerInitTranslator t s := by
  cases s <;> simp [workerInitTranslator, runConfigTranslator]

/-- Claim C8: calling `translate_files` on a manager on which the working
directory and record store were never bound emits exactly one `ErrorOccurred`
event and changes nothing else: no custom terms are saved, no worker is
started, and no other event is emitted. -/
theorem translate_files_not_ready (ct : String) :
    TranslationManager.translate_files ManagerState.fresh ct =
      { ManagerState.fresh with
          events := [.ErrorOccurred "No se ha inicializado el directorio de trabajo"] } := by
  simp [TranslationManager.translate_files, ManagerState.fresh, pyFalsyStr]

/-- Claim C10: a run over an empty file list with no stop requested leaves the
whole state unchanged except for one stop-flag read and the final events: the
translator is never invoked (`calls` stays 0), no record is written
(`records` stays empty), no per-file event is emitted, and the trace is the
summary message reporting 0 of 0 followed by the batch-completed emissions of
lines 76 and 81. -/
theorem empty_batch_summary {env : Env} (wd sl tl : String) (fs : Fs)
    (tr : String → Bool) (h : env.stop 0 = false) :
    TranslationWorker.run env wd sl tl [] (initState fs tr) =
      { initState fs tr with
          clock := 1
          events := [.ProgressMessage (finalMessage 0 0), .BatchCompleted, .BatchCompleted] } := by
  simp [TranslationWorker.run, runLoop, runFinish, initState, h]

/-- Witness for C10: the empty batch under a never-stopping schedule. -/
theorem empty_batch_summary_witness :
    exEnvT.stop 0 = false ∧
    TranslationWorker.run exEnvT "wd" "en" "es" [] (initState exFs (fun _ => false)) =
      { initState exFs (fun _ => false) with
          clock := 1
          events := [.ProgressMessage (finalMessage 0 0), .BatchCompleted, .BatchCompleted] } :=
  ⟨rfl, empty_batch_summary "wd" "en" "es" exFs (fun _ => false) rfl⟩

/-! ### Lemmas on the attempt branch of `runStep` -/

/-- An iteration that reaches the attempt is the skip prefix, the attempt,
then the pacing guard. -/
lemma runStep_attempt {env : Env} {wd sl tl f : String} {i total : Nat} {st : RunState}
    (hstop : env.stop st.clock = false) (ht : st.db.is_file_translated f = false) :
    runStep env wd sl tl f i total st =
      .cont (pacingState env i total
        (attemptState env wd sl tl f (skipState st i total f))) := by
  unfold runStep
  dsimp only
  rw [hstop, ht]
  rfl

lemma attemptState_clock (env : Env) (wd sl tl f : String) (st1 : RunState) :
    (attemptState env wd sl tl f st1).clock = st1.clock := by
  cases hok : (translate_single_file env.translate wd f st1.fs).ok <;>
    simp [attemptState, hok]

lemma attemptState_fs (env : Env) (wd sl tl f : String) (st1 : RunState) :
    (attemptState env wd sl tl f st1).fs =
      (translate_single_file env.translate wd f st1.fs).fs := by
  cases hok : (translate_single_file env.translate wd f st1.fs).ok <;>
    simp [attemptState, hok]

lemma attemptState_events (env : Env) (wd sl tl f : String) (st1 : RunState) :
    (attemptState env wd sl tl f st1).events =
      st1.events ++ (translate_single_file env.translate wd f st1.fs).events ++
        [.FileCompleted f (translate_single_file env.translate wd f st1.fs).ok] := by
  cases hok : (translate_single_file env.translate wd f st1.fs).ok <;>
    simp [attemptState, hok]

lemma attemptState_db_of_fail {env : Env} {wd sl tl f : String} {st1 : RunState}
    (hok : (translate_single_file env.translate wd f st1.fs).ok = false) :
    (attemptState env wd sl tl f st1).db = st1.db := by
  simp [attemptState, hok]

lemma pacingState_db (env : Env) (i total : Nat) (st3 : RunState) :
    (pacingState env i total st3).db = st3.db := by
  simp [pacingState, apply_ite RunState.db]

lemma pacingState_fs (env : Env) (i total : Nat) (st3 : RunState) :
    (pacingState env i total st3).fs = st3.fs := by
  simp [pacingState, apply_ite RunState.fs]

lemma pacingState_events (env : Env) (i total : Nat) (st3 : RunState) :
    (pacingState env i total st3).events = st3.events ∨
      (pacingState env i total st3).events = st3.events ++ [.Sleep 5] := by
  by_cases hi : i < total
  · by_cases hs : env.stop st3.clock = true
    · left
      simp [pacingState, hi, hs]
    · right
      have hs2 : env.stop st3.clock = false := by simpa using hs
      simp [pacingState, hi, hs2]
  · left
    simp [pacingState, hi]

lemma pacingState_events_of_go {env : Env} {i total : Nat} {st3 : RunState}
    (hi : i < total) (hs : env.stop st3.clock = false) :
    (pacingState env i total st3).events = st3.events ++ [.Sleep 5] := by
  simp [pacingState, hi, hs]

/-- Claim C2: when the read succeeds and the translator returns non-empty
output, the commit succeeds; afterwards the target path holds exactly the
translator's output and the temp path no longer exists; the whole effect is
the temp write followed by the atomic replace, and the intermediate state
(after the temp write, before the replace) still holds the original content
at the target path — the visible file changes only at the replace step, never
holding partial content. -/
theorem commit_success (tr : String → TransResult) (wd f text out : String) (fs : Fs)
    (hread : fs (joinPath wd f) = some text)
    (htr : tr text = .ret out) (hne : out ≠ "") :
    (translate_single_file tr wd f fs).ok = true ∧
    (translate_single_file tr wd f fs).fs =
      fsReplace (fsWrite fs (joinPath wd (".temp_" ++ f)) out)
        (joinPath wd (".temp_" ++ f)) (joinPath wd f) ∧
    (translate_single_file tr wd f fs).fs (joinPath wd f) = some out ∧
    (translate_single_file tr wd f fs).fs (joinPath wd (".temp_" ++ f)) = none ∧
    fsWrite fs (joinPath wd (".temp_" ++ f)) out (joinPath wd f) = fs (joinPath wd f) := by
  have hne2 := joinPath_temp_ne wd f
  refine ⟨?_, ?_, ?_, ?_, ?_⟩ <;>
    simp [translate_single_file, hread, htr, hne, fsReplace, fsWrite, hne2, Ne.symm hne2]

/-- Witness for C2: a present file and a translator returning "T". -/
theorem commit_success_witness :
    exFs (joinPath "wd" "a") = some "hola" ∧ exTranslateT "hola" = TransResult.ret "T" ∧
    ("T" : String) ≠ "" ∧
    ((translate_single_file exTranslateT "wd" "a" exFs).ok = true ∧
      (translate_single_file exTranslateT "wd" "a" exFs).fs =
        fsReplace (fsWrite exFs (joinPath "wd" (".temp_" ++ "a")) "T")
          (joinPath "wd" (".temp_" ++ "a")) (joinPath "wd" "a") ∧
      (translate_single_file exTranslateT "wd" "a" exFs).fs (joinPath "wd" "a") = some "T" ∧
      (translate_single_file exTranslateT "wd" "a" exFs).fs (joinPath "wd" (".temp_" ++ "a")) = none ∧
      fsWrite exFs (joinPath "wd" (".temp_" ++ "a")) "T" (joinPath "wd" "a") =
        exFs (joinPath "wd" "a")) :=
  ⟨by decide, rfl, by decide,
    commit_success exTranslateT "wd" "a" "hola" "T" exFs (by decide) rfl (by decide)⟩

/-- Claim C3: when the read fails, the translator raises, or the translator
returns empty output, the iteration leaves the record store untouched and the
original file content unchanged, emits the progress message, then an
`ErrorOccurred` naming the file, then `FileCompleted(f, false)` (plus at most
the pacing pause), and the loop continues with the remaining files instead of
aborting. -/
theorem per_file_failure_recovers {env : Env} {wd sl tl f : String} {i total : Nat}
    {st : RunState} (rest : List String)
    (hstop : env.stop st.clock = false)
    (ht : st.db.is_file_translated f = false)
    (hfail : st.fs (joinPath wd f) = none ∨
      (∃ t m, st.fs (joinPath wd f) = some t ∧ env.translate t = .raise m) ∨
      (∃ t, st.fs (joinPath wd f) = some t ∧ env.translate t = .ret "")) :
    ∃ st2 m,
      runStep env wd sl tl f i total st = .cont st2 ∧
      runLoop env wd sl tl (f :: rest) i total st =
        runLoop env wd sl tl rest (i + 1) total st2 ∧
      st2.db = st.db ∧
      st2.fs (joinPath wd f) = st.fs (joinPath wd f) ∧
      (st2.events = st.events ++
          [.ProgressMessage (progressMsg i total f),
            .ErrorOccurred ("Error al traducir " ++ f ++ ": " ++ m),
            .FileCompleted f false] ∨
        st2.events = st.events ++
          [.ProgressMessage (progressMsg i total f),
            .ErrorOccurred ("Error al traducir " ++ f ++ ": " ++ m),
            .FileCompleted f false, .Sleep 5]) := by
  have hr : ∃ m,
      (translate_single_file env.translate wd f st.fs).ok = false ∧
      (translate_single_file env.translate wd f st.fs).events =
        [Event.ErrorOccurred ("Error al traducir " ++ f ++ ": " ++ m)] ∧
      (translate_single_file env.translate wd f st.fs).fs (joinPath wd f) =
        st.fs (joinPath wd f) := by
    rcases hfail with hnone | ⟨t, m, hread, hraise⟩ | ⟨t, hread, hempty⟩
    · refine ⟨readErrMsg, by simp [translate_single_file, hnone],
        by simp [translate_single_file, hnone], ?_⟩
      by_cases hex : fsExists st.fs (joinPath wd (".temp_" ++ f)) = true <;>
        simp [translate_single_file, hnone, hex, fsRemove, Ne.symm (joinPath_temp_ne wd f)]
    · refine ⟨m, by simp [translate_single_file, hread, hraise],
        by simp [translate_single_file, hread, hraise], ?_⟩
      by_cases hex : fsExists st.fs (joinPath wd (".temp_" ++ f)) = true <;>
        simp [translate_single_file, hread, hraise, hex, fsRemove,
          Ne.symm (joinPath_temp_ne wd f)]
    · have hm : ((": " : String) ++ "No se obtuvo traducción") = ": No se obtuvo traducción" := rfl
      exact ⟨"No se obtuvo traducción", by simp [translate_single_file, hread, hempty],
        by simp [translate_single_file, hread, hempty, String.append_assoc, hm],
        by simp [translate_single_file, hread, hempty]⟩
  obtain ⟨m, hok, hev, hfs2⟩ := hr
  have hok1 : (translate_single_file env.translate wd f (skipState st i total f).fs).ok
      = false := hok
  have hev1 : (translate_single_file env.translate wd f (skipState st i total f).fs).events
      = [Event.ErrorOccurred ("Error al traducir " ++ f ++ ": " ++ m)] := hev
  have hstep := @runStep_attempt env wd sl tl f i total st hstop ht
  refine ⟨_, m, hstep, ?_, ?_, ?_, ?_⟩
  · simp [runLoop, hstep]
  · rw [pacingState_db, attemptState_db_of_fail hok1]
    simp [skipState]
  · rw [pacingState_fs, attemptState_fs]
    exact hfs2
  · rcases pacingState_events env i total
        (attemptState env wd sl tl f (skipState st i total f)) with hpe | hpe
    · left
      rw [hpe, attemptState_events, hev1, hok1]
      simp [skipState]
    · right
      rw [hpe, attemptState_events, hev1, hok1]
      simp [skipState]

/-- Witness for C3: a file missing from the working directory. -/
theorem per_file_failure_recovers_witness :
    exEnvT.stop (initState exFs (fun _ => false)).clock = false ∧
    (initState exFs (fun _ => false)).db.is_file_translated "c" = false ∧
    ((initState exFs (fun _ => false)).fs (joinPath "wd" "c") = none ∨
      (∃ t m, (initState exFs (fun _ => false)).fs (joinPath "wd" "c") = some t ∧
        exEnvT.translate t = .raise m) ∨
      (∃ t, (initState exFs (fun _ => false)).fs (joinPath "wd" "c") = some t ∧
        exEnvT.translate t = .ret "")) ∧
    (∃ st2 m,
      runStep exEnvT "wd" "en" "es" "c" 1 1 (initState exFs (fun _ => false)) = .cont st2 ∧
      runLoop exEnvT "wd" "en" "es" ["c"] 1 1 (initState exFs (fun _ => false)) =
        runLoop exEnvT "wd" "en" "es" [] 2 1 st2 ∧
      st2.db = (initState exFs (fun _ => false)).db ∧
      st2.fs (joinPath "wd" "c") = (initState exFs (fun _ => false)).fs (joinPath "wd" "c") ∧
      (st2.events = (initState exFs (fun _ => false)).events ++
          [.ProgressMessage (progressMsg 1 1 "c"),
            .ErrorOccurred ("Error al traducir " ++ "c" ++ ": " ++ m),
            .FileCompleted "c" false] ∨
        st2.events = (initState exFs (fun _ => false)).events ++
          [.ProgressMessage (progressMsg 1 1 "c"),
            .ErrorOccurred ("Error al traducir " ++ "c" ++ ": " ++ m),
            .FileCompleted "c" false, .Sleep 5])) :=
  ⟨rfl, by decide, Or.inl (by decide),
    per_file_failure_recovers [] rfl (by decide) (Or.inl (by decide))⟩

/-- Claim C6, counterexample: the claim asserts the 5-unit pacing pause also
follows files skipped as already translated.  In a two-file batch whose first
file has a record and with no stop requested, file 1 is processed, is not the
last file, and no stop follows it, yet the run's trace contains no pause at
all: the `continue` at line 56 bypasses the sleep at lines 69-70. -/
theorem pacing_skipped_counterexample :
    (initState exFs (fun n => n == "a")).db.is_file_translated "a" = true ∧
    ((TranslationWorker.run exEnvT "wd" "en" "es" ["a", "b"]
        (initState exFs (fun n => n == "a"))).events).count (Event.Sleep 5) = 0 := by
  constructor <;> decide

/-- Claim C6, amended: the fixed 5-unit pacing pause occurs after a processed
file exactly when the file was actually attempted (not skipped as already
translated), it is not the last file, and no stop was requested after its
processing; an already-translated file is skipped with no pause at all. -/
theorem pacing_after_attempt_only {env : Env} {wd sl tl f : String} {i total : Nat}
    {st : RunState} (hstop : env.stop st.clock = false) :
    (st.db.is_file_translated f = true →
      runStep env wd sl tl f i total st = .cont (skipState st i total f)) ∧
    (st.db.is_file_translated f = false → i < total → env.stop (st.clock + 1) = false →
      ∃ st2, runStep env wd sl tl f i total st = .cont st2 ∧
        st2.events = st.events ++ [Event.ProgressMessage (progressMsg i total f)] ++
          (translate_single_file env.translate wd f st.fs).events ++
          [Event.FileCompleted f (translate_single_file env.translate wd f st.fs).ok,
            Event.Sleep 5]) := by
  refine ⟨fun ht => runStep_skip hstop ht, fun ht hi hs => ?_⟩
  have hstep := @runStep_attempt env wd sl tl f i total st hstop ht
  refine ⟨_, hstep, ?_⟩
  have hclk : (attemptState env wd sl tl f (skipState st i total f)).clock = st.clock + 1 := by
    rw [attemptState_clock]
    simp [skipState]
  have hs1 : env.stop (attemptState env wd sl tl f (skipState st i total f)).clock = false := by
    rw [hclk]
    exact hs
  rw [pacingState_events_of_go hi hs1, attemptState_events]
  simp [skipState]

/-- Witness for C6 (amended): first file of two already recorded. -/
theorem pacing_after_attempt_only_witness :
    exEnvT.stop (initState exFs (fun n => n == "a")).clock = false ∧
    (((initState exFs (fun n => n == "a")).db.is_file_translated "a" = true →
        runStep exEnvT "wd" "en" "es" "a" 1 2 (initState exFs (fun n => n == "a")) =
          .cont (skipState (initState exFs (fun n => n == "a")) 1 2 "a")) ∧
      ((initState exFs (fun n => n == "a")).db.is_file_translated "a" = false → 1 < 2 →
        exEnvT.stop ((initState exFs (fun n => n == "a")).clock + 1) = false →
        ∃ st2,
          runStep exEnvT "wd" "en" "es" "a" 1 2 (initState exFs (fun n => n == "a")) =
            .cont st2 ∧
          st2.events = (initState exFs (fun n => n == "a")).events ++
            [Event.ProgressMessage (progressMsg 1 2 "a")] ++
            (translate_single_file exEnvT.translate "wd" "a"
              (initState exFs (fun n => n == "a")).fs).events ++
            [Event.FileCompleted "a"
              (translate_single_file exEnvT.translate "wd" "a"
                (initState exFs (fun n => n == "a")).fs).ok,
              Event.Sleep 5])) :=
  ⟨rfl, pacing_after_attempt_only rfl⟩
